import Mathlib

/-!
# pgx adapter for `ericlagergren/decimal`: conversions between wire values and decimals

Shallow embedding of `decimal.go` (type `Decimal` with `ScanNumeric`, `NumericValue`,
`ScanFloat64`, `Float64Value`, `ScanInt64`, `Int64Value`).

Conventions of the embedding.

* `math/big.Int` values are Lean `Int` (sign and magnitude, no negative zero); a
  `*big.Int` that may be nil is `Option Int`.
* Fixed-width Go integers are `Int`/`Nat` with the wrap-around written out
  (`toInt64`, `toInt32`, `% 2 ^ 64`); Go `int` is 64 bits wide.
* A pointer `*decimal.Big` is `Option Big`; a method that writes through a pointer
  returns the new content of the pointee next to its Go results.
* A Go call either returns its results or panics: `Outcome`.
-/

namespace PgxDecimal

/-! ## Machine integers -/

/-- Conversion to Go `int64`: two-complement wrap-around of an integer. -/
def toInt64 (x : Int) : Int := (x + 2 ^ 63) % 2 ^ 64 - 2 ^ 63

/-- Conversion to Go `int32`: two-complement wrap-around of an integer. -/
def toInt32 (x : Int) : Int := (x + 2 ^ 31) % 2 ^ 32 - 2 ^ 31

/-- Conversion to Go `uint64`. -/
def toUint64 (x : Int) : Nat := (x % 2 ^ 64).toNat

/-- The constant `math.MinInt64`. -/
def MinInt64 : Int := -2 ^ 63

/-- The constant `math.MaxInt64`. -/
def MaxInt64 : Int := 2 ^ 63 - 1

/-- The constant `math.MinInt32`. -/
def MinInt32 : Int := -2 ^ 31

/-- The constant `math.MaxInt32`. -/
def MaxInt32 : Int := 2 ^ 31 - 1

/-- The constant `math.MaxUint64`. -/
def MaxUint64 : Nat := 2 ^ 64 - 1

/-! ## Outcome of a Go call -/

/-- A Go call with results `(val, err)`: it returns them (`err = none` is the nil
error), or it panics, or it never returns. -/
inductive Outcome (α : Type) where
  | returned (val : α) (err : Option String)
  | panicked
  | diverged
  deriving DecidableEq

/-! ## `math/big.Int` (standard library, used through `*big.Int`) -/

namespace BigInt

/-- Modelled from the spec: `(*big.Int).IsInt64` of the Go standard library (not under
src/): whether the mantissa is "fitting in a native signed 64-bit integer". -/
def IsInt64 (x : Int) : Bool := decide (MinInt64 ≤ x ∧ x ≤ MaxInt64)

/-- Modelled from the spec: `(*big.Int).Int64` of the Go standard library (not under
src/): the low 64 bits of the magnitude as an `int64`, negated when the value is
negative. -/
def Int64 (x : Int) : Int :=
  let v := toInt64 (x.natAbs % 2 ^ 64 : Nat)
  if x < 0 then toInt64 (-v) else v

/-- Modelled from the spec: `(*big.Int).IsUint64` of the Go standard library (not under
src/). -/
def IsUint64 (x : Int) : Bool := decide (0 ≤ x ∧ x ≤ (MaxUint64 : Int))

/-- Modelled from the spec: `(*big.Int).Uint64` of the Go standard library (not under
src/): the low 64 bits of the magnitude. -/
def Uint64 (x : Int) : Nat := x.natAbs % 2 ^ 64

/-- Number of 64-bit words of the natural number `x`, at most `fuel` of them counted;
`fuel = x` is always enough. -/
def wordsAux : Nat → Nat → Nat
  | 0, _ => 0
  | fuel + 1, x => if x = 0 then 0 else 1 + wordsAux fuel (x / 2 ^ 64)

/-- Modelled from the spec: `len(x.Bits())` of the Go standard library (not under
src/), the number of 64-bit words of the magnitude: "the mantissa underlying word
representation is empty" exactly for the value zero. -/
def BitsLen (x : Int) : Nat := wordsAux x.natAbs x.natAbs

/-- Modelled from the spec: `(*big.Int).Sign` of the Go standard library (not under
src/): -1, 0 or +1. -/
def Sign (x : Int) : Int := if x < 0 then -1 else if x = 0 then 0 else 1

/-- Modelled from the spec: `(*big.Int).Neg` of the Go standard library (not under
src/). -/
def Neg (x : Int) : Int := -x

/-- Modelled from the spec: `(*big.Int).Abs` of the Go standard library (not under
src/). -/
def Abs (x : Int) : Int := (x.natAbs : Int)

/-- Modelled from the spec: `big.NewInt` of the Go standard library (not under src/). -/
def NewInt (i : Int) : Int := i

end BigInt

/-! ## The wrapped decimal library: `decimal.Big` -/

/-- Modelled from the spec: the struct `decimal.Big` of the wrapped library
`github.com/ericlagergren/decimal` (not under src/): "an inline machine-word magnitude
or a big-integer magnitude" (`compact`, a `uint64`, and `unscaled`, a `big.Int`), the
negated scale `exp`, the cached digit count `precision`, and `form`, whose bit 0 is the
sign flag and whose bits 1 to 3 mark infinities and NaNs. The `Context` field, which no
function below reads, is left out. -/
structure Big where
  unscaled : Int
  compact : Nat
  exp : Int
  precision : Int
  form : Nat
  deriving DecidableEq

namespace Big

/-- Modelled from the spec: the library constant `c.Inflated = math.MaxUint64` (not
under src/), the value of `compact` that says the magnitude lives in `unscaled`. -/
def Inflated : Nat := MaxUint64

/-- Modelled from the spec: the library form bit `signbit` (not under src/). -/
def signbit : Nat := 1

/-- Modelled from the spec: the library form `finite` (not under src/). -/
def finite : Nat := 0

/-- Modelled from the spec: the library form mask `inf | nan` (not under src/):
bit 1 is infinity, bits 2 and 3 are the signalling and quiet NaN. -/
def specialMask : Nat := 2 ||| 4 ||| 8

/-- Modelled from the spec: the value `new(decimal.Big)` (not under src/), all fields
zero. -/
def zeroValue : Big := { unscaled := 0, compact := 0, exp := 0, precision := 0, form := 0 }

/-- Modelled from the spec: `(*Big).IsFinite` of the wrapped library (not under src/). -/
def IsFinite (x : Big) : Bool := x.form &&& specialMask == 0

/-- Modelled from the spec: `(*Big).isZero` of the wrapped library (not under src/):
`x.compact == 0`. -/
def isZero (x : Big) : Bool := x.compact == 0

/-- Modelled from the spec: `(*Big).isCompact` of the wrapped library (not under src/):
`x.compact != c.Inflated`. -/
def isCompact (x : Big) : Bool := x.compact != Inflated

/-- Modelled from the spec: `(*Big).IsNaN(0)` of the wrapped library (not under src/). -/
def IsNaN (x : Big) : Bool := x.form &&& (4 ||| 8) != 0

/-- Modelled from the spec: `(*Big).Signbit` of the wrapped library (not under src/):
"the decimal sign bit". -/
def Signbit (x : Big) : Bool := x.form &&& signbit != 0

/-- Modelled from the spec: `(*Big).Sign` of the wrapped library (not under src/): 0 for
a finite zero or a NaN, otherwise -1 or +1 after the sign flag: "the decimal
authoritative sign". -/
def Sign (x : Big) : Int :=
  if (x.IsFinite && x.isZero) || x.IsNaN then 0
  else if x.form &&& signbit != 0 then -1
  else 1

/-- Modelled from the spec: `(*Big).Scale` of the wrapped library (not under src/):
`-x.exp` in Go `int`. -/
def Scale (x : Big) : Int := toInt64 (-x.exp)

/-- Number of decimal digits of `x`, at most `fuel + 1` of them counted; `fuel = x` is
always enough. -/
def digitsAux : Nat → Nat → Nat
  | 0, _ => 1
  | fuel + 1, x => if x < 10 then 1 else 1 + digitsAux fuel (x / 10)

/-- Modelled from the spec: `arith.Length` of the wrapped library (not under src/): the
number of decimal digits of a `uint64`, 1 for zero. -/
def arithLength (x : Nat) : Int := (digitsAux 20 x : Nat)

/-- Modelled from the spec: `arith.BigLength` of the wrapped library (not under src/):
the number of decimal digits of a big integer. -/
def arithBigLength (x : Int) : Int := (digitsAux x.natAbs x.natAbs : Nat)

/-- Modelled from the spec: `arith.Abs` of the wrapped library (not under src/): the
magnitude of an `int64` as a `uint64` (2^63 for `math.MinInt64`). -/
def arithAbs (x : Int) : Nat := x.natAbs % 2 ^ 64

/-- Modelled from the spec: `(*Big).SetUint64` of the wrapped library (not under src/):
store the magnitude inline; `unscaled` is written only when `x` is `c.Inflated`. -/
def SetUint64 (z : Big) (x : Nat) : Big :=
  { z with
    compact := x
    unscaled := if x = Inflated then (x : Int) else z.unscaled
    precision := arithLength x
    exp := 0
    form := finite }

/-- Modelled from the spec: `(*Big).SetMantScale` of the wrapped library (not under
src/): "construct the decimal value directly from (int64 mantissa, scale)". -/
def SetMantScale (z : Big) (value : Int) (scale : Int) : Big :=
  let z1 := z.SetUint64 (arithAbs value)
  let z2 := { z1 with exp := toInt64 (-scale) }
  if value < 0 then { z2 with form := z2.form ||| signbit } else z2

/-- Modelled from the spec: `decimal.New` of the wrapped library (not under src/):
`new(Big).SetMantScale(value, scale)`. -/
def New (value : Int) (scale : Int) : Big := zeroValue.SetMantScale value scale

/-- Modelled from the spec: `(*Big).SetBigMantScale` of the wrapped library (not under
src/): "construct the decimal value from (big-integer mantissa, scale)": the sign flag
is the sign of `value`, `unscaled` its magnitude, and `compact` the magnitude too when it
fits a `uint64` and is not `c.Inflated`. -/
def SetBigMantScale (z : Big) (value : Int) (scale : Int) : Big :=
  let form := if BigInt.Sign value < 0 then finite ||| signbit else finite
  let unscaled := BigInt.Abs value
  let compact :=
    if BigInt.IsUint64 unscaled && BigInt.Uint64 unscaled != Inflated
    then BigInt.Uint64 unscaled else Inflated
  { z with
    form := form
    unscaled := unscaled
    compact := compact
    precision := arithBigLength value
    exp := toInt64 (-scale) }

/-- Modelled from the spec: `decimal.Raw` of the wrapped library (not under src/): "the
decimal raw representation, which itself exposes two forms": pointers to `x.compact`
(never nil) and to `x.unscaled`. -/
def Raw (x : Big) : Option Nat × Int := (some x.compact, x.unscaled)

/-- Modelled from the spec: `(*Big).Precision` of the wrapped library (not under src/):
0 for a special value, otherwise the cached digit count, 1 when that is 0. -/
def Precision (x : Big) : Int :=
  if !x.IsFinite then 0 else if x.precision = 0 then 1 else x.precision

/-- Number of times the loop `for ; v%10 == 0; v /= 10` runs, `none` when it has not
stopped after `fuel` rounds; `fuel = v` is enough for every `v` but 0, for which the
loop never stops. -/
def trailingZeros : Nat → Nat → Option Nat
  | 0, _ => none
  | fuel + 1, v =>
    if v % 10 = 0 then (trailingZeros fuel (v / 10)).map (· + 1) else some 0

/-- Modelled from the spec: `(*Big).IsInt` of the wrapped library (not under src/):
whether the decimal "is an exact integer (no fractional part present)". Special values
are not integers; zero and values with `exp >= 0` are; otherwise the trailing zero digits
of the magnitude are counted against `-exp`. The result is `none` when a loop of the
library does not terminate (inflated form with a zero `unscaled`). -/
def IsInt (x : Big) : Option Bool :=
  if !x.IsFinite then some false
  else if x.isZero || decide (x.exp ≥ 0) then some true
  else
    let xp := x.Precision
    let exp := x.exp
    if -exp ≥ xp then some false
    else if x.isCompact then
      (trailingZeros x.compact x.compact).map
        (fun k => decide (exp + (k : Int) ≥ 0))
    else if x.unscaled.natAbs % 2 = 0 then
      (trailingZeros x.unscaled.natAbs x.unscaled.natAbs).map
        (fun k => decide (exp + (k : Int) ≥ 0))
    else some (decide (exp ≥ 0))

/-- Modelled from the spec: `arith.Pow10` of the wrapped library (not under src/):
`10^n` from a table of the 20 powers that fit a `uint64`, and whether `n` is in it. -/
def arithPow10 (n : Nat) : Nat × Bool :=
  if n ≥ 20 then (0, false) else (10 ^ n, true)

/-- Modelled from the spec: `arith.MulPow10` of the wrapped library (not under src/):
`x * 10^n` in a `uint64` and whether the product fits. -/
def arithMulPow10 (x n : Nat) : Nat × Bool :=
  if x = 0 then (0, true)
  else if n ≥ 20 then (0, false)
  else (x * 10 ^ n % 2 ^ 64, decide (x * 10 ^ n < 2 ^ 64))

/-- Modelled from the spec: `scalex` of the wrapped library (not under src/):
`x * 10^scale` for a positive scale, `x / 10^-scale` otherwise, and whether that could
be computed in a `uint64`. -/
def scalex (x : Nat) (scale : Int) : Nat × Bool :=
  if scale > 0 then
    let r := arithMulPow10 x (toUint64 scale)
    if !r.2 then (0, false) else (r.1, true)
  else
    let p := arithPow10 (toUint64 (-scale))
    if !p.2 then (0, false) else (x / p.1, true)

/-- Modelled from the spec: `bigScalex` of the wrapped library (not under src/): the
same on big integers, the quotient truncated towards zero. -/
def bigScalex (x : Int) (scale : Int) : Int :=
  if scale > 0 then x * 10 ^ toUint64 scale else Int.tdiv x (10 ^ toUint64 (-scale))

/-- Modelled from the spec: `(*Big).Int(nil)` of the wrapped library (not under src/):
the decimal as a big integer, the fraction truncated; zero for a special value. -/
def toBigInt (x : Big) : Int :=
  if !x.IsFinite then 0
  else
    let z : Int := if x.isCompact then (x.compact : Int) else x.unscaled
    let z := if x.Signbit then BigInt.Neg z else z
    if x.exp = 0 then z else bigScalex z x.exp

/-- Modelled from the spec: `(*Big).Int64` of the wrapped library (not under src/): the
decimal as an `int64`, truncated towards zero, and "a boolean indicating whether the
conversion was successful"; `(0, false)` when the inline magnitude, rescaled, does not
fit, and the low 64 bits with `false` when the inflated one does not. -/
def Int64 (x : Big) : Int × Bool :=
  if !x.IsFinite then (0, false)
  else if !x.isCompact then
    let xb := x.toBigInt
    (BigInt.Int64 xb, BigInt.IsInt64 xb)
  else
    let r : Nat × Bool := if x.exp ≠ 0 then scalex x.compact x.exp else (x.compact, true)
    if !r.2 then (0, false)
    else
      let su := toInt64 r.1
      if decide (su ≥ 0) || (x.Signbit && su == toInt64 (-su)) then
        (if x.Signbit then toInt64 (-su) else su, true)
      else (0, false)

end Big

/-! ## pgtype values -/

/-- Modelled from the spec: `pgtype.InfinityModifier` of the driver (not under src/), an
`int8`: `Finite = 0`, `Infinity = 1`, `NegativeInfinity = -1`. -/
abbrev InfinityModifier := Int

/-- Modelled from the spec: `pgtype.Finite` (not under src/). -/
def Finite : InfinityModifier := 0

/-- Modelled from the spec: `pgtype.Infinity` (not under src/). -/
def Infinity : InfinityModifier := 1

/-- Modelled from the spec: `pgtype.NegativeInfinity` (not under src/). -/
def NegativeInfinity : InfinityModifier := -1

/-- Modelled from the spec: `InfinityModifier.String` of the driver (not under src/),
which `%v` prints: the infinity "and its sign". -/
def InfinityModifier.String (im : InfinityModifier) : String :=
  if im = Finite then "finite"
  else if im = Infinity then "infinity"
  else if im = NegativeInfinity then "-infinity"
  else "invalid"

/-- Modelled from the spec: `pgtype.Numeric` of the driver (not under src/): "validity
flag, NaN flag, infinity-sign flag, integer mantissa, integer exponent". -/
structure Numeric where
  Int : Option ℤ
  Exp : ℤ
  NaN : Bool
  InfinityModifier : PgxDecimal.InfinityModifier
  Valid : Bool
  deriving DecidableEq

/-- Modelled from the spec: `pgtype.Int8` of the driver (not under src/). -/
structure Int8 where
  Int64 : Int
  Valid : Bool
  deriving DecidableEq

/-- Modelled from the spec: `pgtype.Float8` of the driver (not under src/); the type `F`
stands for `float64`. -/
structure Float8 (F : Type) where
  Float64 : F
  Valid : Bool

/-- Modelled from the spec: what the code uses of `float64` and of the float
conversions of the wrapped library (not under src/): `math.IsNaN`, `math.IsInf(_, 0)`,
the test `f == 0`, the `%v` text, `(*Big).SetFloat64`, and the first result of
`(*Big).Float64`. -/
structure FloatOps (F : Type) where
  IsNaN : F → Bool
  IsInf : F → Bool
  eqZero : F → Bool
  format : F → String
  SetFloat64 : Big → F → Big
  Float64 : Big → F

/-! ## `decimal.go` -/

/-- The type `Decimal` (`postgres.Decimal` of the wrapped library): the pointer `V` and
the flags `Round` and `Zero`. -/
structure Decimal where
  V : Option Big
  Round : Bool
  Zero : Bool
  deriving DecidableEq

/-- The empty value `Decimal{}`. -/
def Decimal.empty : Decimal := { V := none, Round := false, Zero := false }

/-- The method `func (d *Decimal) ScanNumeric(v pgtype.Numeric) error`. The result is the
content of `*d` after the call and the returned error. -/
def ScanNumeric (d : Decimal) (v : Numeric) : Outcome Decimal :=
  if !v.Valid then
    .returned Decimal.empty none
  else if v.NaN then
    .returned d (some "cannot scan NaN into *postgres.Decimal")
  else if v.InfinityModifier != Finite then
    .returned d
      (some ("cannot scan " ++ v.InfinityModifier.String ++ " into *postgres.Decimal"))
  else
    match v.Int with
    | none => .panicked
    | some m =>
      let bd : Big :=
        if BigInt.IsInt64 m then
          Big.New (BigInt.Int64 m) (toInt64 (-v.Exp))
        else
          Big.zeroValue.SetBigMantScale m (toInt64 (-v.Exp))
      .returned { V := some bd, Round := false, Zero := BigInt.BitsLen m == 0 } none

/-- The method `func (d Decimal) NumericValue() (pgtype.Numeric, error)`. The value
returned is the `pgtype.Numeric` together with the content, after the call, of the
`decimal.Big` that `d.V` points to (`rawAsBigInt` is a pointer into it, and `Neg` writes
through it). -/
def NumericValue (d : Decimal) : Outcome (Numeric × Option Big) :=
  match d.V with
  | none =>
    .returned
      ({ Int := none, Exp := 0, NaN := false, InfinityModifier := 0, Valid := false }, none)
      none
  | some x =>
    let (rawAsUint, rawAsBigInt) := Big.Raw x
    if rawAsUint.isSome && BigInt.BitsLen rawAsBigInt == 0 then
      let i := toInt64 (rawAsUint.getD 0)
      let i := if x.Signbit then toInt64 (i * -1) else i
      .returned
        ({ Int := some (BigInt.NewInt i), Exp := toInt32 (-(toInt32 x.Scale)), NaN := false,
           InfinityModifier := 0, Valid := true }, some x)
        none
    else
      let rawAsBigInt :=
        if x.Sign != BigInt.Sign rawAsBigInt then BigInt.Neg rawAsBigInt else rawAsBigInt
      .returned
        ({ Int := some rawAsBigInt, Exp := toInt32 (-(toInt32 x.Scale)), NaN := false,
           InfinityModifier := 0, Valid := true }, some { x with unscaled := rawAsBigInt })
        none

/-- The method `func (d *Decimal) ScanFloat64(v pgtype.Float8) error`. The result is the
content of `*d` after the call and the returned error. -/
def ScanFloat64 {F : Type} (ops : FloatOps F) (d : Decimal) (v : Float8 F) : Outcome Decimal :=
  if !v.Valid then
    .returned Decimal.empty none
  else if ops.IsNaN v.Float64 then
    .returned d (some "cannot scan NaN into *postgres.Decimal")
  else if ops.IsInf v.Float64 then
    .returned d (some ("cannot scan " ++ ops.format v.Float64 ++ " into *postgres.Decimal"))
  else
    let res := ops.SetFloat64 Big.zeroValue v.Float64
    .returned { V := some res, Round := false, Zero := ops.eqZero v.Float64 } none

/-- The method `func (d Decimal) Float64Value() (pgtype.Float8, error)`: `dd.V.Float64()`
reads through the pointer `dd.V` without a nil check. -/
def Float64Value {F : Type} (ops : FloatOps F) (d : Decimal) : Outcome (Float8 F) :=
  match d.V with
  | none => .panicked
  | some x =>
    let floatVal := ops.Float64 x
    .returned { Float64 := floatVal, Valid := true } none

/-- The method `func (d *Decimal) ScanInt64(v pgtype.Int8) error`. The result is the
content of `*d` after the call and the returned error. -/
def ScanInt64 (d : Decimal) (v : Int8) : Outcome Decimal :=
  if !v.Valid then
    .returned d (some "cannot scan NULL into *postgres.Decimal")
  else
    .returned { V := some (Big.New v.Int64 0), Round := false, Zero := false } none

/-- The method `func (d Decimal) Int64Value() (pgtype.Int8, error)`; `fmtV` is the `%v`
text of a `postgres.Decimal`. The second result of `dd.V.Int64()` is dropped. -/
def Int64Value (fmtV : Decimal → String) (d : Decimal) : Outcome Int8 :=
  match d.V with
  | none => .panicked
  | some x =>
    match x.IsInt with
    | none => .diverged
    | some false =>
      .returned { Int64 := 0, Valid := false }
        (some ("cannot convert " ++ fmtV d ++ " to int64"))
    | some true =>
      let i64 := x.Int64.1
      .returned { Int64 := i64, Valid := true } none

/-! ## Observations on a decimal used to state the properties -/

/-- The magnitude of a decimal as the wrapped library reads it: the inline word unless
that is `c.Inflated`, in which case the magnitude of the big integer. -/
def Big.magnitude (x : Big) : Nat :=
  if x.isCompact then x.compact else x.unscaled.natAbs

/-- The finite wire value `Finite(m, e)`: valid, not NaN, no infinity. -/
def Numeric.finite (m e : ℤ) : Numeric :=
  { Int := some m, Exp := e, NaN := false, InfinityModifier := Finite, Valid := true }

end PgxDecimal

/-! # Theorems -/

namespace PgxDecimal

/-! ## Arithmetic of the fixed-width conversions -/

theorem exp_roundtrip (e : Int) (h : MinInt32 ≤ e ∧ e ≤ MaxInt32) :
    toInt32 (-(toInt32 (toInt64 (-(toInt64 (-(toInt64 (-e)))))))) = e := by
  unfold toInt64 toInt32
  unfold MinInt32 MaxInt32 at h
  omega

theorem BitsLen_eq_zero_iff (x : Int) : BigInt.BitsLen x = 0 ↔ x = 0 := by
  unfold BigInt.BitsLen
  constructor
  · intro h
    cases hx : x.natAbs with
    | zero => exact Int.natAbs_eq_zero.mp hx
    | succ n =>
      rw [hx] at h
      simp [BigInt.wordsAux] at h
  · intro h
    subst h
    rfl

/-! ## Rejection of NaN and of the infinities, decoding of NULL, totality of the encoder -/

/-- C4: for every valid wire numeric `v`, `ScanNumeric` returns an error exactly when `v`
is NaN or its infinity modifier is not `Finite`; the error for NaN is "cannot scan NaN
into *postgres.Decimal", the error for `Infinity` and `NegativeInfinity` names the
infinity with its sign, and whenever an error is returned the destination is left as it
was, so no decimal is returned as a success. -/
theorem ScanNumeric_error_iff_special (d0 : Decimal) (v : Numeric) (hv : v.Valid = true) :
    ((∃ d msg, ScanNumeric d0 v = .returned d (some msg)) ↔
        (v.NaN = true ∨ v.InfinityModifier ≠ Finite)) ∧
      (v.NaN = true →
        ScanNumeric d0 v = .returned d0 (some "cannot scan NaN into *postgres.Decimal")) ∧
      (v.NaN = false → v.InfinityModifier = Infinity →
        ScanNumeric d0 v = .returned d0 (some "cannot scan infinity into *postgres.Decimal")) ∧
      (v.NaN = false → v.InfinityModifier = NegativeInfinity →
        ScanNumeric d0 v = .returned d0 (some "cannot scan -infinity into *postgres.Decimal")) ∧
      (v.NaN = false → v.InfinityModifier ≠ Finite →
        ScanNumeric d0 v = .returned d0
          (some ("cannot scan " ++ v.InfinityModifier.String ++ " into *postgres.Decimal"))) := by
  obtain ⟨vi, ve, vn, vm, vv⟩ := v
  simp only at hv
  subst hv
  refine ⟨?_, ?_, ?_, ?_, ?_⟩
  · constructor
    · rintro ⟨d, msg, h⟩
      by_contra hc
      push_neg at hc
      obtain ⟨h1, h2⟩ := hc
      simp only [Bool.not_eq_true] at h1
      simp only at h2
      subst h1
      subst h2
      cases vi <;> simp [ScanNumeric, Finite] at h
    · rintro (h | h)
      · simp only at h
        subst h
        exact ⟨d0, "cannot scan NaN into *postgres.Decimal", by simp [ScanNumeric]⟩
      · simp only at h
        cases vn
        · exact ⟨d0, "cannot scan " ++ vm.String ++ " into *postgres.Decimal",
            by simp [ScanNumeric, h]⟩
        · exact ⟨d0, "cannot scan NaN into *postgres.Decimal", by simp [ScanNumeric]⟩
  · intro h
    simp only at h
    subst h
    simp [ScanNumeric]
  · intro h1 h2
    simp only at h1 h2
    subst h1
    subst h2
    simp [ScanNumeric, Finite, Infinity, InfinityModifier.String]
  · intro h1 h2
    simp only at h1 h2
    subst h1
    subst h2
    simp [ScanNumeric, Finite, Infinity, NegativeInfinity, InfinityModifier.String]
  · intro h1 h2
    simp only at h1 h2
    subst h1
    simp [ScanNumeric, h2]

/-- C5: whatever the destination held before and whatever the other fields of an invalid
input hold, `ScanNumeric` and `ScanFloat64` return no error and leave the empty `Decimal`
in the destination, and `ScanInt64` returns an error. -/
theorem scan_NULL {F : Type} (ops : FloatOps F) (d0 : Decimal) (v : Numeric) (f : Float8 F)
    (i : Int8) (hv : v.Valid = false) (hf : f.Valid = false) (hi : i.Valid = false) :
    ScanNumeric d0 v = .returned { V := none, Round := false, Zero := false } none ∧
      ScanFloat64 ops d0 f = .returned { V := none, Round := false, Zero := false } none ∧
      ∃ d msg, ScanInt64 d0 i = .returned d (some msg) := by
  refine ⟨?_, ?_, ?_⟩
  · simp [ScanNumeric, hv, Decimal.empty]
  · simp [ScanFloat64, hf, Decimal.empty]
  · exact ⟨d0, "cannot scan NULL into *postgres.Decimal", by simp [ScanInt64, hi]⟩

/-- C6: for every `Decimal`, `NumericValue` returns with a nil error; the wire value it
returns is invalid (Null) exactly when `d.V` is nil, and it is never NaN and always has
the modifier `Finite`, so that a valid result is a finite one. -/
theorem NumericValue_never_fails (d : Decimal) :
    ∃ n b, NumericValue d = .returned (n, b) none ∧
      (n.Valid = false ↔ d.V = none) ∧ n.Valid = d.V.isSome ∧
      n.NaN = false ∧ n.InfinityModifier = Finite := by
  obtain ⟨v, r, z⟩ := d
  cases v with
  | none => exact ⟨_, _, rfl, by simp, rfl, rfl, rfl⟩
  | some x =>
    simp only [NumericValue]
    split
    · exact ⟨_, _, rfl, by simp, rfl, rfl, rfl⟩
    · exact ⟨_, _, rfl, by simp, rfl, rfl, rfl⟩

/-! ## The two constructors of the wrapped library -/

theorem New_eq (n s : Int) (hn : MinInt64 ≤ n ∧ n ≤ MaxInt64) :
    Big.New n s =
      { unscaled := 0, compact := n.natAbs, exp := toInt64 (-s),
        precision := Big.arithLength n.natAbs, form := if n < 0 then 1 else 0 } := by
  have habs : Big.arithAbs n = n.natAbs := by
    unfold Big.arithAbs
    unfold MinInt64 MaxInt64 at hn
    omega
  have hne : ¬ n.natAbs = Big.Inflated := by
    unfold Big.Inflated MaxUint64
    unfold MinInt64 MaxInt64 at hn
    omega
  unfold Big.New Big.SetMantScale Big.SetUint64 Big.zeroValue
  rw [habs]
  by_cases h : n < 0
  · simp [h, hne, Big.finite, Big.signbit]
  · simp [h, hne, Big.finite]

theorem SetBigMantScale_eq (m s : Int) :
    Big.zeroValue.SetBigMantScale m s =
      { unscaled := (m.natAbs : Int),
        compact := if m.natAbs < 2 ^ 64 - 1 then m.natAbs else 2 ^ 64 - 1,
        exp := toInt64 (-s),
        precision := Big.arithBigLength m, form := if m < 0 then 1 else 0 } := by
  have hform : (if BigInt.Sign m < 0 then Big.finite ||| Big.signbit else Big.finite)
      = if m < 0 then 1 else 0 := by
    unfold BigInt.Sign
    by_cases h : m < 0
    · simp [h, Big.finite, Big.signbit]
    · by_cases h0 : m = 0
      · simp [h0, Big.finite]
      · simp [h, h0, Big.finite]
  have hcompact :
      (if (BigInt.IsUint64 (BigInt.Abs m) && BigInt.Uint64 (BigInt.Abs m) != Big.Inflated) = true
        then BigInt.Uint64 (BigInt.Abs m) else Big.Inflated)
      = if m.natAbs < 2 ^ 64 - 1 then m.natAbs else 2 ^ 64 - 1 := by
    unfold BigInt.IsUint64 BigInt.Uint64 BigInt.Abs Big.Inflated MaxUint64
    simp only [Int.natAbs_ofNat, Bool.and_eq_true, decide_eq_true_eq, bne_iff_ne, ne_eq]
    by_cases h : m.natAbs < 2 ^ 64 - 1
    · rw [if_pos h, if_pos]
      · omega
      · refine ⟨⟨by omega, by omega⟩, by omega⟩
    · rw [if_neg h, if_neg]
      rintro ⟨⟨_, h2⟩, h3⟩
      omega
  unfold Big.SetBigMantScale
  simp only [hform, hcompact]
  rfl

theorem BigInt_Int64_of_range (m : Int) (h : MinInt64 ≤ m ∧ m ≤ MaxInt64) :
    BigInt.Int64 m = m := by
  unfold BigInt.Int64 toInt64
  unfold MinInt64 MaxInt64 at h
  simp only
  split <;> omega

theorem BigInt_IsInt64_iff (m : Int) :
    BigInt.IsInt64 m = true ↔ (MinInt64 ≤ m ∧ m ≤ MaxInt64) := by
  unfold BigInt.IsInt64
  simp

/-! ## Observations on a decimal whose form is `finite` or `finite | signbit` -/

theorem obs_IsFinite (u : Int) (c : Nat) (e p : Int) (q : Prop) [Decidable q] :
    Big.IsFinite { unscaled := u, compact := c, exp := e, precision := p,
                   form := if q then 1 else 0 } = true := by
  by_cases hq : q <;> simp [Big.IsFinite, Big.specialMask, hq]

theorem obs_Signbit (u : Int) (c : Nat) (e p : Int) (q : Prop) [Decidable q] :
    Big.Signbit { unscaled := u, compact := c, exp := e, precision := p,
                  form := if q then 1 else 0 } = decide q := by
  by_cases hq : q <;> simp [Big.Signbit, Big.signbit, hq]

theorem obs_Sign (u : Int) (c : Nat) (e p : Int) (q : Prop) [Decidable q] :
    Big.Sign { unscaled := u, compact := c, exp := e, precision := p,
               form := if q then 1 else 0 }
      = if c = 0 then 0 else if q then -1 else 1 := by
  by_cases hq : q <;> by_cases hc : c = 0 <;> simp [Big.Sign, Big.IsFinite, Big.isZero,
    Big.IsNaN, Big.specialMask, Big.signbit, hc, hq]

theorem obs_Scale (u : Int) (c : Nat) (e p : Int) (f : Nat) :
    Big.Scale { unscaled := u, compact := c, exp := e, precision := p, form := f }
      = toInt64 (-e) := rfl

theorem obs_magnitude (u : Int) (c : Nat) (e p : Int) (f : Nat) :
    Big.magnitude { unscaled := u, compact := c, exp := e, precision := p, form := f }
      = if c = 2 ^ 64 - 1 then u.natAbs else c := by
  unfold Big.magnitude Big.isCompact Big.Inflated MaxUint64
  by_cases hc : c = 2 ^ 64 - 1 <;> simp [hc]

theorem scale_of_exp (e : Int) (h : MinInt32 ≤ e ∧ e ≤ MaxInt32) :
    toInt64 (-(toInt64 (-(toInt64 (-e))))) = -e := by
  unfold toInt64
  unfold MinInt32 MaxInt32 at h
  omega

theorem New_obs (n s : Int) (hn : MinInt64 ≤ n ∧ n ≤ MaxInt64) :
    (Big.New n s).IsFinite = true ∧ (Big.New n s).Signbit = decide (n < 0) ∧
      (Big.New n s).Sign = BigInt.Sign n ∧ (Big.New n s).magnitude = n.natAbs ∧
      (Big.New n s).Scale = toInt64 (-(toInt64 (-s))) := by
  rw [New_eq n s hn, obs_IsFinite, obs_Signbit, obs_Sign, obs_magnitude, obs_Scale]
  refine ⟨rfl, rfl, ?_, ?_, rfl⟩
  · unfold BigInt.Sign
    by_cases h : n < 0
    · have : ¬ n.natAbs = 0 := by omega
      simp [h, this]
    · by_cases h0 : n = 0
      · simp [h0]
      · have : ¬ n.natAbs = 0 := by omega
        simp [h, h0, this]
  · unfold MinInt64 MaxInt64 at hn
    rw [if_neg]
    omega

theorem SetBigMantScale_obs (m s : Int) :
    (Big.zeroValue.SetBigMantScale m s).IsFinite = true ∧
      (Big.zeroValue.SetBigMantScale m s).Signbit = decide (m < 0) ∧
      (Big.zeroValue.SetBigMantScale m s).Sign = BigInt.Sign m ∧
      (Big.zeroValue.SetBigMantScale m s).magnitude = m.natAbs ∧
      (Big.zeroValue.SetBigMantScale m s).Scale = toInt64 (-(toInt64 (-s))) := by
  rw [SetBigMantScale_eq m s, obs_IsFinite, obs_Signbit, obs_Sign, obs_magnitude, obs_Scale]
  refine ⟨rfl, rfl, ?_, ?_, rfl⟩
  · unfold BigInt.Sign
    by_cases h : m < 0
    · have : ¬ (if m.natAbs < 2 ^ 64 - 1 then m.natAbs else 2 ^ 64 - 1) = 0 := by
        split <;> omega
      simp only [h, if_true, if_neg this]
    · by_cases h0 : m = 0
      · simp [h0]
      · have : ¬ (if m.natAbs < 2 ^ 64 - 1 then m.natAbs else 2 ^ 64 - 1) = 0 := by
          split <;> omega
        simp only [h, h0, if_false, if_neg this]
  · simp only [Int.natAbs_ofNat]
    split <;> split <;> omega

/-! ## Decoding of a finite wire value -/

theorem decode_finite_obs (d0 : Decimal) (m e : Int) (he : MinInt32 ≤ e ∧ e ≤ MaxInt32) :
    ∃ x, ScanNumeric d0 (Numeric.finite m e)
          = .returned { V := some x, Round := false, Zero := decide (m = 0) } none ∧
      x.IsFinite = true ∧ x.Signbit = decide (m < 0) ∧ x.Sign = BigInt.Sign m ∧
      x.magnitude = m.natAbs ∧ x.Scale = -e ∧
      x = (if BigInt.IsInt64 m = true then Big.New (BigInt.Int64 m) (toInt64 (-e))
            else Big.zeroValue.SetBigMantScale m (toInt64 (-e))) := by
  have hzero : (BigInt.BitsLen m == 0) = decide (m = 0) := by
    by_cases h0 : m = 0
    · simp [h0, (BitsLen_eq_zero_iff 0).mpr rfl]
    · have : ¬ BigInt.BitsLen m = 0 := fun h => h0 ((BitsLen_eq_zero_iff m).mp h)
      simp [h0, this]
  have hsc := scale_of_exp e he
  by_cases hm : BigInt.IsInt64 m = true
  · have hr := (BigInt_IsInt64_iff m).mp hm
    obtain ⟨n1, n2, n3, n4, n5⟩ := New_obs m (toInt64 (-e)) hr
    refine ⟨Big.New m (toInt64 (-e)), ?_, n1, n2, n3, n4, by rw [n5, hsc], ?_⟩
    · simp [ScanNumeric, Numeric.finite, Finite, hm, BigInt_Int64_of_range m hr, hzero]
    · rw [if_pos hm, BigInt_Int64_of_range m hr]
  · obtain ⟨s1, s2, s3, s4, s5⟩ := SetBigMantScale_obs m (toInt64 (-e))
    refine ⟨Big.zeroValue.SetBigMantScale m (toInt64 (-e)), ?_, s1, s2, s3, s4,
      by rw [s5, hsc], ?_⟩
    · simp [ScanNumeric, Numeric.finite, Finite, hm, hzero]
    · rw [if_neg hm]

/-- C3: for every valid, non-NaN, finite wire numeric with mantissa `m` and `int32`
exponent `e`, `ScanNumeric` returns no error and stores a finite decimal whose sign is the
sign of `m` (sign flag set exactly when `m < 0`), whose magnitude is `|m|`, whose scale is
`-e`, and whose `Zero` flag is true exactly when `m = 0`; and when `m` fits an `int64` the
decimal stored is the one of the `int64` fast path, which has the same sign flag, sign,
magnitude and scale as the decimal the big-integer path builds from the same `(m, e)`. -/
theorem ScanNumeric_finite (d0 : Decimal) (m e : Int) (he : MinInt32 ≤ e ∧ e ≤ MaxInt32) :
    ∃ x, ScanNumeric d0 (Numeric.finite m e)
          = .returned { V := some x, Round := false, Zero := decide (m = 0) } none ∧
      x.IsFinite = true ∧ x.Signbit = decide (m < 0) ∧ x.Sign = BigInt.Sign m ∧
      x.magnitude = m.natAbs ∧ x.Scale = -e ∧
      (BigInt.IsInt64 m = true →
        x = Big.New (BigInt.Int64 m) (toInt64 (-e)) ∧
        x.Signbit = (Big.zeroValue.SetBigMantScale m (toInt64 (-e))).Signbit ∧
        x.Sign = (Big.zeroValue.SetBigMantScale m (toInt64 (-e))).Sign ∧
        x.magnitude = (Big.zeroValue.SetBigMantScale m (toInt64 (-e))).magnitude ∧
        x.Scale = (Big.zeroValue.SetBigMantScale m (toInt64 (-e))).Scale) := by
  obtain ⟨x, hx, x1, x2, x3, x4, x5, hdef⟩ := decode_finite_obs d0 m e he
  obtain ⟨_, s2, s3, s4, s5⟩ := SetBigMantScale_obs m (toInt64 (-e))
  refine ⟨x, hx, x1, x2, x3, x4, x5, fun hm => ⟨?_, ?_, ?_, ?_, ?_⟩⟩
  · rw [hdef, if_pos hm]
  · rw [x2, s2]
  · rw [x3, s3]
  · rw [x4, s4]
  · rw [x5, s5, scale_of_exp e he]

/-! ## Wire value to decimal and back -/

theorem NumericValue_inline (c : Nat) (e p : Int) (q : Prop) [Decidable q] (r z : Bool) :
    NumericValue { V := some { unscaled := 0, compact := c, exp := e, precision := p,
                               form := if q then 1 else 0 }, Round := r, Zero := z }
      = .returned
          ({ Int := some (if q then toInt64 (toInt64 c * -1) else toInt64 c),
             Exp := toInt32 (-(toInt32 (toInt64 (-e)))), NaN := false,
             InfinityModifier := 0, Valid := true },
           some { unscaled := 0, compact := c, exp := e, precision := p,
                  form := if q then 1 else 0 })
          none := by
  have hb : BigInt.BitsLen 0 = 0 := (BitsLen_eq_zero_iff 0).mpr rfl
  simp only [NumericValue, Big.Raw, hb, obs_Signbit, obs_Scale, BigInt.NewInt]
  by_cases hq : q <;> simp [hq]

theorem NumericValue_big (u : Int) (c : Nat) (e p : Int) (q : Prop) [Decidable q] (r z : Bool)
    (hu : 0 < u) (hc : c ≠ 0) :
    NumericValue { V := some { unscaled := u, compact := c, exp := e, precision := p,
                               form := if q then 1 else 0 }, Round := r, Zero := z }
      = .returned
          ({ Int := some (if q then -u else u),
             Exp := toInt32 (-(toInt32 (toInt64 (-e)))), NaN := false,
             InfinityModifier := 0, Valid := true },
           some { unscaled := if q then -u else u, compact := c, exp := e, precision := p,
                  form := if q then 1 else 0 })
          none := by
  have hb : ¬ BigInt.BitsLen u = 0 := fun h => by
    have := (BitsLen_eq_zero_iff u).mp h
    omega
  have hs : BigInt.Sign u = 1 := by
    unfold BigInt.Sign
    rw [if_neg (by omega), if_neg (by omega)]
  simp only [NumericValue, Big.Raw, obs_Sign, obs_Scale, hs, BigInt.Neg]
  by_cases hq : q <;> simp [hq, hb, hc]

/-- C2: for every valid, non-NaN, finite wire numeric with mantissa `m` (any integer) and
exponent `e` (any `int32`, `math.MinInt32` included), `ScanNumeric` succeeds, and
`NumericValue` of the decimal it stored returns, with a nil error, the valid finite wire
numeric with exactly the mantissa `m` and the exponent `e`. -/
theorem scan_then_NumericValue (d0 : Decimal) (m e : Int) (he : MinInt32 ≤ e ∧ e ≤ MaxInt32) :
    ∃ d, ScanNumeric d0 (Numeric.finite m e) = .returned d none ∧
      ∃ b, NumericValue d = .returned (Numeric.finite m e, b) none := by
  have hexp := exp_roundtrip e he
  by_cases hm : BigInt.IsInt64 m = true
  · have hr := (BigInt_IsInt64_iff m).mp hm
    refine ⟨{ V := some (Big.New m (toInt64 (-e))), Round := false,
              Zero := BigInt.BitsLen m == 0 }, ?_, ?_⟩
    · simp [ScanNumeric, Numeric.finite, Finite, hm, BigInt_Int64_of_range m hr]
    · rw [New_eq m _ hr, NumericValue_inline, hexp]
      have hmant : (if m < 0 then toInt64 (toInt64 (m.natAbs : Int) * -1)
          else toInt64 (m.natAbs : Int)) = m := by
        unfold MinInt64 MaxInt64 at hr
        unfold toInt64
        split <;> omega
      rw [hmant]
      exact ⟨_, rfl⟩
  · have hr : ¬ (MinInt64 ≤ m ∧ m ≤ MaxInt64) := fun h => hm ((BigInt_IsInt64_iff m).mpr h)
    unfold MinInt64 MaxInt64 at hr
    refine ⟨{ V := some (Big.zeroValue.SetBigMantScale m (toInt64 (-e))), Round := false,
              Zero := BigInt.BitsLen m == 0 }, ?_, ?_⟩
    · simp [ScanNumeric, Numeric.finite, Finite, hm]
    · rw [SetBigMantScale_eq, NumericValue_big _ _ _ _ _ _ _ (by omega) (by split <;> omega),
        hexp]
      have hmant : (if m < 0 then -(m.natAbs : Int) else (m.natAbs : Int)) = m := by
        split <;> omega
      rw [hmant]
      exact ⟨_, rfl⟩

/-! ## The `int8` conversions -/

theorem IsInt_of_exp_nonneg (u : Int) (c : Nat) (e p : Int) (q : Prop) [Decidable q]
    (he : 0 ≤ e) :
    Big.IsInt { unscaled := u, compact := c, exp := e, precision := p,
                form := if q then 1 else 0 } = some true := by
  unfold Big.IsInt
  rw [obs_IsFinite]
  simp [he]

theorem Int64_inline_exp_zero (u : Int) (c : Nat) (p : Int) (q : Prop) [Decidable q]
    (hc : c ≤ 2 ^ 63) (hq : c = 2 ^ 63 → q) :
    Big.Int64 { unscaled := u, compact := c, exp := 0, precision := p,
                form := if q then 1 else 0 }
      = (if q then -(c : Int) else (c : Int), true) := by
  unfold Big.Int64
  rw [obs_IsFinite, obs_Signbit]
  have hcomp : ∀ f : Nat, Big.isCompact
      { unscaled := u, compact := c, exp := 0, precision := p, form := f } = true := by
    intro f
    unfold Big.isCompact Big.Inflated MaxUint64
    simp only [bne_iff_ne, ne_eq]
    omega
  rw [hcomp]
  simp only [Bool.not_true, Bool.false_eq_true, if_false, ne_eq, not_true_eq_false]
  by_cases hq2 : q
  · simp only [hq2, decide_True, Bool.true_and, if_true]
    by_cases h63 : c = 2 ^ 63
    · subst h63
      simp [toInt64]
    · have h1 : toInt64 (c : Int) = c := by unfold toInt64; omega
      have h2 : toInt64 (-(c : Int)) = -(c : Int) := by unfold toInt64; omega
      rw [h1, h2]
      simp
  · have hlt : c < 2 ^ 63 := by
      rcases Nat.lt_or_ge c (2 ^ 63) with h | h
      · exact h
      · exact absurd (hq (by omega)) hq2
    have h1 : toInt64 (c : Int) = c := by unfold toInt64; omega
    rw [h1]
    simp [hq2]

/-- C8: for every `int64` `n` (0, `math.MaxInt64` and `math.MinInt64` included),
`Int64Value` of a `Decimal` holding `decimal.New(n, 0)` returns `Int8{Int64: n, Valid:
true}` with a nil error, and `ScanInt64` of that `Int8` returns no error and stores a finite
decimal equal to `n`: scale 0, the sign of `n` (sign flag set exactly when `n < 0`), and
magnitude `|n|`. -/
theorem int8_roundtrip (fmtV : Decimal → String) (d0 : Decimal) (r z : Bool) (n : Int)
    (hn : MinInt64 ≤ n ∧ n ≤ MaxInt64) :
    Int64Value fmtV { V := some (Big.New n 0), Round := r, Zero := z }
        = .returned { Int64 := n, Valid := true } none ∧
      ∃ x, ScanInt64 d0 { Int64 := n, Valid := true }
            = .returned { V := some x, Round := false, Zero := false } none ∧
        x.IsFinite = true ∧ x.Scale = 0 ∧ x.Signbit = decide (n < 0) ∧
        x.Sign = BigInt.Sign n ∧ x.magnitude = n.natAbs := by
  constructor
  · have h0 : toInt64 (-0) = 0 := by decide
    have hval : (if n < 0 then -((n.natAbs : Nat) : Int) else ((n.natAbs : Nat) : Int)) = n := by
      split <;> omega
    unfold Int64Value
    simp only [New_eq n 0 hn, h0]
    rw [IsInt_of_exp_nonneg _ _ _ _ _ (le_refl 0)]
    simp only
    rw [Int64_inline_exp_zero, hval]
    · unfold MinInt64 MaxInt64 at hn
      omega
    · unfold MinInt64 MaxInt64 at hn
      omega
  · obtain ⟨n1, n2, n3, n4, n5⟩ := New_obs n 0 hn
    refine ⟨Big.New n 0, ?_, n1, ?_, n2, n3, n4⟩
    · simp [ScanInt64]
    · rw [n5]
      decide

/-! ## Witnesses -/

/-- C2 (witness): the mantissa 2^64, beyond the `uint64` range, with the exponent
`math.MinInt32`. -/
theorem scan_then_NumericValue_witness :
    (MinInt32 ≤ MinInt32 ∧ MinInt32 ≤ MaxInt32) ∧
      ∃ d, ScanNumeric Decimal.empty (Numeric.finite (2 ^ 64) MinInt32) = .returned d none ∧
        ∃ b, NumericValue d = .returned (Numeric.finite (2 ^ 64) MinInt32, b) none :=
  ⟨by decide, scan_then_NumericValue Decimal.empty (2 ^ 64) MinInt32 (by decide)⟩

/-- C3 (witness): the mantissa `math.MinInt64` with the exponent -6. -/
theorem ScanNumeric_finite_witness :
    (MinInt32 ≤ -6 ∧ -6 ≤ MaxInt32) ∧
      ∃ x, ScanNumeric Decimal.empty (Numeric.finite MinInt64 (-6))
            = .returned { V := some x, Round := false, Zero := decide (MinInt64 = 0) } none ∧
        x.IsFinite = true ∧ x.Signbit = decide (MinInt64 < 0) ∧
        x.Sign = BigInt.Sign MinInt64 ∧ x.magnitude = MinInt64.natAbs ∧ x.Scale = -(-6) ∧
        (BigInt.IsInt64 MinInt64 = true →
          x = Big.New (BigInt.Int64 MinInt64) (toInt64 (-(-6))) ∧
          x.Signbit = (Big.zeroValue.SetBigMantScale MinInt64 (toInt64 (-(-6)))).Signbit ∧
          x.Sign = (Big.zeroValue.SetBigMantScale MinInt64 (toInt64 (-(-6)))).Sign ∧
          x.magnitude = (Big.zeroValue.SetBigMantScale MinInt64 (toInt64 (-(-6)))).magnitude ∧
          x.Scale = (Big.zeroValue.SetBigMantScale MinInt64 (toInt64 (-(-6)))).Scale) :=
  ⟨by decide, ScanNumeric_finite Decimal.empty MinInt64 (-6) (by decide)⟩

/-- C4 (witness): the wire value `-Infinity`, valid and not NaN. -/
theorem ScanNumeric_error_iff_special_witness :
    (Numeric.mk none 0 false NegativeInfinity true).Valid = true ∧
      (((∃ d msg, ScanNumeric Decimal.empty (Numeric.mk none 0 false NegativeInfinity true)
            = .returned d (some msg)) ↔
          ((Numeric.mk none 0 false NegativeInfinity true).NaN = true ∨
            (Numeric.mk none 0 false NegativeInfinity true).InfinityModifier ≠ Finite)) ∧
        ((Numeric.mk none 0 false NegativeInfinity true).NaN = true →
          ScanNumeric Decimal.empty (Numeric.mk none 0 false NegativeInfinity true)
            = .returned Decimal.empty (some "cannot scan NaN into *postgres.Decimal")) ∧
        ((Numeric.mk none 0 false NegativeInfinity true).NaN = false →
          (Numeric.mk none 0 false NegativeInfinity true).InfinityModifier = Infinity →
          ScanNumeric Decimal.empty (Numeric.mk none 0 false NegativeInfinity true)
            = .returned Decimal.empty
                (some "cannot scan infinity into *postgres.Decimal")) ∧
        ((Numeric.mk none 0 false NegativeInfinity true).NaN = false →
          (Numeric.mk none 0 false NegativeInfinity true).InfinityModifier = NegativeInfinity →
          ScanNumeric Decimal.empty (Numeric.mk none 0 false NegativeInfinity true)
            = .returned Decimal.empty
                (some "cannot scan -infinity into *postgres.Decimal")) ∧
        ((Numeric.mk none 0 false NegativeInfinity true).NaN = false →
          (Numeric.mk none 0 false NegativeInfinity true).InfinityModifier ≠ Finite →
          ScanNumeric Decimal.empty (Numeric.mk none 0 false NegativeInfinity true)
            = .returned Decimal.empty
                (some ("cannot scan " ++
                  (Numeric.mk none 0 false NegativeInfinity true).InfinityModifier.String ++
                  " into *postgres.Decimal")))) :=
  ⟨rfl, ScanNumeric_error_iff_special Decimal.empty
    (Numeric.mk none 0 false NegativeInfinity true) rfl⟩

/-- C5 (witness): invalid inputs whose other fields are not zero, scanned into a
destination that holds the decimal 7. -/
theorem scan_NULL_witness :
    ((Numeric.mk (some 5) 3 true Infinity false).Valid = false ∧
      (Float8.mk (1 : Nat) false).Valid = false ∧ (Int8.mk 9 false).Valid = false) ∧
      (ScanNumeric { V := some (Big.New 7 0), Round := true, Zero := true }
          (Numeric.mk (some 5) 3 true Infinity false)
          = .returned { V := none, Round := false, Zero := false } none ∧
        ScanFloat64 (FloatOps.mk (fun _ => false) (fun _ => false) (fun n => n == 0)
            (fun _ => "") (fun z n => z.SetUint64 n) (fun x => x.compact))
          { V := some (Big.New 7 0), Round := true, Zero := true } (Float8.mk (1 : Nat) false)
          = .returned { V := none, Round := false, Zero := false } none ∧
        ∃ d msg, ScanInt64 { V := some (Big.New 7 0), Round := true, Zero := true }
          (Int8.mk 9 false) = .returned d (some msg)) :=
  ⟨⟨rfl, rfl, rfl⟩,
    scan_NULL (FloatOps.mk (fun _ => false) (fun _ => false) (fun n => n == 0)
        (fun _ => "") (fun z n => z.SetUint64 n) (fun x => x.compact))
      { V := some (Big.New 7 0), Round := true, Zero := true }
      (Numeric.mk (some 5) 3 true Infinity false) (Float8.mk (1 : Nat) false)
      (Int8.mk 9 false) rfl rfl rfl⟩

/-- C8 (witness): `math.MinInt64`. -/
theorem int8_roundtrip_witness :
    (MinInt64 ≤ MinInt64 ∧ MinInt64 ≤ MaxInt64) ∧
      (Int64Value (fun _ => "") { V := some (Big.New MinInt64 0), Round := false, Zero := false }
          = .returned { Int64 := MinInt64, Valid := true } none ∧
        ∃ x, ScanInt64 Decimal.empty { Int64 := MinInt64, Valid := true }
              = .returned { V := some x, Round := false, Zero := false } none ∧
          x.IsFinite = true ∧ x.Scale = 0 ∧ x.Signbit = decide (MinInt64 < 0) ∧
          x.Sign = BigInt.Sign MinInt64 ∧ x.magnitude = MinInt64.natAbs) :=
  ⟨by decide, int8_roundtrip (fun _ => "") Decimal.empty false false MinInt64 (by decide)⟩

/-! ## Where the code departs from the specification -/

/-- C1: the round trip decimal, wire value, decimal breaks on the inline path of the
encoder. For the positive decimal 9223372036854775808 (inline magnitude 2^63, empty big
integer, sign flag clear, scale 0) `NumericValue` returns the mantissa
-9223372036854775808, since `int64(*rawAsUint)` wraps, and `ScanNumeric` of that result
stores a negative decimal: `Sign()` is +1 before and -1 after, the sign flag is clear
before and set after. The claim says the sign is the same. -/
theorem NumericValue_wraps_inline_magnitude :
    Big.zeroValue.SetUint64 (2 ^ 63)
        = { unscaled := 0, compact := 9223372036854775808, exp := 0, precision := 19,
            form := 0 } ∧
      NumericValue { V := some (Big.zeroValue.SetUint64 (2 ^ 63)), Round := false,
                     Zero := false }
        = .returned (Numeric.finite (-9223372036854775808) 0,
            some (Big.zeroValue.SetUint64 (2 ^ 63))) none ∧
      ScanNumeric Decimal.empty (Numeric.finite (-9223372036854775808) 0)
        = .returned
            { V := some { unscaled := 0, compact := 9223372036854775808, exp := 0,
                          precision := 19, form := 1 },
              Round := false, Zero := false } none ∧
      (Big.zeroValue.SetUint64 (2 ^ 63)).IsFinite = true ∧
      (Big.zeroValue.SetUint64 (2 ^ 63)).magnitude = 9223372036854775808 ∧
      (Big.zeroValue.SetUint64 (2 ^ 63)).Scale = 0 ∧
      (Big.zeroValue.SetUint64 (2 ^ 63)).Signbit = false ∧
      (Big.zeroValue.SetUint64 (2 ^ 63)).Sign = 1 ∧
      Big.Signbit { unscaled := 0, compact := 9223372036854775808, exp := 0,
                    precision := 19, form := 1 } = true ∧
      Big.Sign { unscaled := 0, compact := 9223372036854775808, exp := 0,
                 precision := 19, form := 1 } = -1 := by
  decide

/-- C7: `Float64Value` panics on the empty `Decimal`: `ScanFloat64` and `ScanNumeric` store
the empty `Decimal` (nil `V`) for SQL NULL without error, and `Float64Value` of that value
dereferences the nil `V` and panics instead of returning a valid `Float8`. -/
theorem Float64Value_panics_on_empty {F : Type} (ops : FloatOps F) (d0 : Decimal) (f : F)
    (m : Option Int) (e : Int) (nan : Bool) (im : InfinityModifier) :
    ScanFloat64 ops d0 { Float64 := f, Valid := false } = .returned Decimal.empty none ∧
      ScanNumeric d0 { Int := m, Exp := e, NaN := nan, InfinityModifier := im, Valid := false }
        = .returned Decimal.empty none ∧
      Float64Value ops Decimal.empty = .panicked ∧
      Float64Value ops { V := none, Round := false, Zero := false } = .panicked :=
  ⟨rfl, rfl, rfl, rfl⟩

/-- C9: `NumericValue` writes through `d.V` on the big-integer path of a negative decimal.
For `-123456000000000.123456` (big-integer magnitude 123456000000000123456, sign flag set,
scale 6) the call returns the mantissa -123456000000000123456 and leaves the big integer
inside the decimal negated: 123456000000000123456 before the call,
-123456000000000123456 after it. -/
theorem NumericValue_negates_unscaled :
    Big.zeroValue.SetBigMantScale (-123456000000000123456) 6
        = { unscaled := 123456000000000123456, compact := 18446744073709551615, exp := -6,
            precision := 21, form := 1 } ∧
      NumericValue { V := some (Big.zeroValue.SetBigMantScale (-123456000000000123456) 6),
                     Round := false, Zero := false }
        = .returned
            (Numeric.finite (-123456000000000123456) (-6),
             some { unscaled := -123456000000000123456, compact := 18446744073709551615,
                    exp := -6, precision := 21, form := 1 })
            none := by
  decide

/-- C10: `Int64Value` reports a successful, different `int64` for an integer out of range.
For the decimal 9223372036854775808 (inline magnitude 2^63, positive, scale 0), which is
an integer, `Int64Value` returns `Int8{Int64: 0, Valid: true}` with a nil error: the second
result of `Int64()`, which is false here, is dropped. The same happens for 2^64 held in
the big integer. -/
theorem Int64Value_out_of_range (fmtV : Decimal → String) :
    (Big.zeroValue.SetUint64 (2 ^ 63)).IsInt = some true ∧
      (Big.zeroValue.SetUint64 (2 ^ 63)).Int64 = (0, false) ∧
      (Big.zeroValue.SetUint64 (2 ^ 63)).magnitude = 9223372036854775808 ∧
      (Big.zeroValue.SetUint64 (2 ^ 63)).Scale = 0 ∧
      (Big.zeroValue.SetUint64 (2 ^ 63)).Sign = 1 ∧
      Int64Value fmtV { V := some (Big.zeroValue.SetUint64 (2 ^ 63)), Round := false,
                        Zero := false }
        = .returned { Int64 := 0, Valid := true } none ∧
      Int64Value fmtV { V := some (Big.zeroValue.SetBigMantScale (2 ^ 64) 0), Round := false,
                        Zero := false }
        = .returned { Int64 := 0, Valid := true } none := by
  refine ⟨by decide, by decide, by decide, by decide, by decide, ?_, ?_⟩
  · have h1 : (Big.zeroValue.SetUint64 (2 ^ 63)).IsInt = some true := by decide
    have h2 : (Big.zeroValue.SetUint64 (2 ^ 63)).Int64 = (0, false) := by decide
    simp only [Int64Value, h1, h2]
  · have h1 : (Big.zeroValue.SetBigMantScale (2 ^ 64) 0).IsInt = some true := by decide
    have h2 : (Big.zeroValue.SetBigMantScale (2 ^ 64) 0).Int64 = (0, false) := by decide
    simp only [Int64Value, h1, h2]

end PgxDecimal
